import Mathlib

/-!
# Verification of the teranode UTXO-store create pipeline and peer catchup reputation

Shallow embedding of:
* `catchup` peer metrics (`PeerCatchupMetrics`, `CatchupMetrics`) — reputation
  state machine and registry.
* `stores/utxo/aerospike/create.go` — `splitIntoBatches`, `GetBinsToStore`,
  the single-item behaviour of `sendStoreBatch`, `StoreTransactionExternally`
  and `StorePartialTransactionExternally`.

Machine floats: `ReputationScore` is a Go `float64`, but every operation adds
or subtracts the integer constants 10, 2, 1, or resets to 0/100, starting from
the integers 50 or 0; IEEE-754 double arithmetic is exact on these values, so
the score is embedded as `Int`.

Durations (`time.Duration`) are embedded as `Int` nanosecond counts; Go's
integer division for the rolling average truncates toward zero, as does `Int`
division in Lean.
-/

namespace Teranode

/-! ## Peer catchup metrics (catchup package) -/

/-- Per-peer catchup metrics record. Time stamps are absolute wall-clock
values supplied by the caller (`time.Now()` is a parameter of the embedded
operations). The `sync.RWMutex` is dropped: operations are embedded as pure
state transformers, which is exactly the per-record serializability the lock
provides. -/
structure PeerCatchupMetrics where
  peerID : String := ""
  successfulRequests : Int := 0
  failedRequests : Int := 0
  totalRequests : Int := 0
  averageResponseTime : Int := 0
  lastResponseTime : Int := 0
  reputationScore : Int := 0
  maliciousAttempts : Int := 0
  consecutiveFailures : Int := 0
  lastSuccessTime : Nat := 0
  lastFailureTime : Nat := 0
  lastRequestTime : Nat := 0
  totalHeadersFetched : Int := 0
  deriving Repr, DecidableEq

namespace PeerCatchupMetrics

/-- `RecordSuccess` records a successful request: `+10` reputation ("10 for a
valid block"), capped at 100. -/
def RecordSuccess (pm : PeerCatchupMetrics) (now : Nat) : PeerCatchupMetrics :=
  let score := pm.reputationScore + 10
  { pm with
    successfulRequests := pm.successfulRequests + 1
    totalRequests := pm.totalRequests + 1
    consecutiveFailures := 0
    lastSuccessTime := now
    reputationScore := if score > 100 then 100 else score }

/-- `RecordFailure` records a failed request: `-2` reputation, applied only
when the current score is strictly positive. -/
def RecordFailure (pm : PeerCatchupMetrics) (now : Nat) : PeerCatchupMetrics :=
  { pm with
    failedRequests := pm.failedRequests + 1
    totalRequests := pm.totalRequests + 1
    consecutiveFailures := pm.consecutiveFailures + 1
    lastFailureTime := now
    reputationScore :=
      if pm.reputationScore > 0 then pm.reputationScore - 2 else pm.reputationScore }

/-- `RecordMaliciousAttempt` records detected malicious behaviour: the score
is reset to 0. -/
def RecordMaliciousAttempt (pm : PeerCatchupMetrics) : PeerCatchupMetrics :=
  { pm with
    maliciousAttempts := pm.maliciousAttempts + 1
    reputationScore := 0 }

/-- `IsTrusted` — reputation above 50 and no malicious attempts. -/
def IsTrusted (pm : PeerCatchupMetrics) : Bool :=
  pm.reputationScore > 50 && pm.maliciousAttempts == 0

/-- `IsMalicious` — reputation below 10 with at least one malicious attempt. -/
def IsMalicious (pm : PeerCatchupMetrics) : Bool :=
  pm.reputationScore < 10 && pm.maliciousAttempts > 0

/-- `IsBad` — reputation below 10. -/
def IsBad (pm : PeerCatchupMetrics) : Bool :=
  pm.reputationScore < 10

/-- `UpdateReputation` updates reputation based on success/failure and
response time. On success: `+1` only while below 100, and the rolling average
response time is updated with Go's truncating `time.Duration` division. On
failure: `-2` only while strictly positive. -/
def UpdateReputation (pm : PeerCatchupMetrics) (success : Bool) (responseTime : Int) :
    PeerCatchupMetrics :=
  if success then
    { pm with
      reputationScore :=
        if pm.reputationScore < 100 then pm.reputationScore + 1 else pm.reputationScore
      consecutiveFailures := 0
      lastResponseTime := responseTime
      averageResponseTime :=
        if pm.averageResponseTime == 0 then responseTime
        else (pm.averageResponseTime * pm.successfulRequests + responseTime) /
          (pm.successfulRequests + 1) }
  else
    { pm with
      reputationScore :=
        if pm.reputationScore > 0 then pm.reputationScore - 2 else pm.reputationScore
      consecutiveFailures := pm.consecutiveFailures + 1 }

end PeerCatchupMetrics

/-- Registry of per-peer metrics, keyed by peer id. The Go `map` plus its
lock is embedded as an association list with unique keys; `Option` at the
call sites models a `nil` receiver. -/
structure CatchupMetrics where
  peerMetrics : List (String × PeerCatchupMetrics)
  deriving Repr, DecidableEq

/-- `NewCatchupMetrics` creates an empty registry. -/
def NewCatchupMetrics : CatchupMetrics := ⟨[]⟩

/-- `GetOrCreatePeerMetrics` gets or creates metrics for a peer; a `nil`
receiver (`none`) returns a zero-value record and touches no registry. On a
miss the new record starts with neutral reputation 50 and is inserted.
Returns the record together with the post-state of the (optional) registry. -/
def CatchupMetrics.GetOrCreatePeerMetrics (cm : Option CatchupMetrics) (peerID : String) :
    PeerCatchupMetrics × Option CatchupMetrics :=
  match cm with
  | none => ({}, none)
  | some m =>
    match m.peerMetrics.lookup peerID with
    | some pm => (pm, some m)
    | none =>
      let pm : PeerCatchupMetrics := { peerID := peerID, reputationScore := 50 }
      (pm, some ⟨(peerID, pm) :: m.peerMetrics⟩)

/-- One operation of the reputation state machine, with its wall-clock /
response-time inputs. -/
inductive CatchupOp where
  | success (now : Nat)
  | failure (now : Nat)
  | malicious
  | update (ok : Bool) (responseTime : Int)
  deriving Repr, DecidableEq

/-- Apply one catchup operation to a peer record. -/
def applyCatchupOp (pm : PeerCatchupMetrics) : CatchupOp → PeerCatchupMetrics
  | .success now => pm.RecordSuccess now
  | .failure now => pm.RecordFailure now
  | .malicious => pm.RecordMaliciousAttempt
  | .update ok rt => pm.UpdateReputation ok rt

/-- Apply a sequence of catchup operations from left to right. -/
def applyCatchupOps (pm : PeerCatchupMetrics) (ops : List CatchupOp) : PeerCatchupMetrics :=
  ops.foldl applyCatchupOp pm

/-- A freshly registered peer, as built by `GetOrCreatePeerMetrics` on a
miss: neutral reputation 50, all counters zero. -/
def newPeer (peerID : String) : PeerCatchupMetrics :=
  { peerID := peerID, reputationScore := 50 }

theorem reputation_step_bounds (pm : PeerCatchupMetrics)
    (h₁ : -1 ≤ pm.reputationScore) (h₂ : pm.reputationScore ≤ 100) (op : CatchupOp) :
    -1 ≤ (applyCatchupOp pm op).reputationScore ∧
      (applyCatchupOp pm op).reputationScore ≤ 100 := by
  cases op with
  | success now =>
    simp only [applyCatchupOp, PeerCatchupMetrics.RecordSuccess]
    split <;> omega
  | failure now =>
    simp only [applyCatchupOp, PeerCatchupMetrics.RecordFailure]
    split <;> omega
  | malicious =>
    simp only [applyCatchupOp, PeerCatchupMetrics.RecordMaliciousAttempt]
    omega
  | update ok rt =>
    simp only [applyCatchupOp, PeerCatchupMetrics.UpdateReputation]
    cases ok <;> simp only [Bool.false_eq_true, if_true, if_false] <;> split <;> omega

theorem reputation_ops_bounds (pm : PeerCatchupMetrics)
    (h₁ : -1 ≤ pm.reputationScore) (h₂ : pm.reputationScore ≤ 100)
    (ops : List CatchupOp) :
    -1 ≤ (applyCatchupOps pm ops).reputationScore ∧
      (applyCatchupOps pm ops).reputationScore ≤ 100 := by
  induction ops generalizing pm with
  | nil => exact ⟨h₁, h₂⟩
  | cons op rest ih =>
    have h := reputation_step_bounds pm h₁ h₂ op
    exact ih _ h.1 h.2

/-- **C1.** (counterexample) Starting from the initial score 50, the sequence
`RecordMaliciousAttempt; UpdateReputation(success); RecordFailure` drives the
reputation score to `-1`, strictly below the claimed lower bound 0: the
malicious event resets the score to 0, the successful update raises it to 1,
and `RecordFailure` subtracts 2 because the score is strictly positive. -/
theorem C1_reputation_can_go_negative :
    (applyCatchupOps (newPeer "p")
      [.malicious, .update true 0, .failure 0]).reputationScore = -1 ∧
      ¬ (0 ≤ (applyCatchupOps (newPeer "p")
        [.malicious, .update true 0, .failure 0]).reputationScore) := by
  constructor <;> decide

/-- **C1.** (amended) For every sequence of operations drawn from
`RecordSuccess`, `RecordFailure`, `RecordMaliciousAttempt` and
`UpdateReputation` (any success flags, times and response times), applied in
any order to a peer record that starts with `ReputationScore` 50, the score
lies within `[-1, 100]` after every operation (the lower bound `-1` is
attained, so this interval is tight). -/
theorem C1_reputation_bounds (peerID : String) (ops : List CatchupOp) :
    -1 ≤ (applyCatchupOps (newPeer peerID) ops).reputationScore ∧
      (applyCatchupOps (newPeer peerID) ops).reputationScore ≤ 100 :=
  reputation_ops_bounds _ (by simp [newPeer]) (by simp [newPeer]) ops

/-- **C10.** `GetOrCreatePeerMetrics` on a nil registry returns a fresh
record with `ReputationScore` 0 (the Go zero value, not the neutral 50) and
inserts nothing (the registry stays `nil`); on a non-nil registry, a peer
created for the first time starts with `ReputationScore` exactly 50. -/
theorem C10_get_or_create_peer_metrics (peerID : String) (m : CatchupMetrics)
    (hmiss : m.peerMetrics.lookup peerID = none) :
    (CatchupMetrics.GetOrCreatePeerMetrics none peerID).1.reputationScore = 0 ∧
      (CatchupMetrics.GetOrCreatePeerMetrics none peerID).2 = none ∧
      (CatchupMetrics.GetOrCreatePeerMetrics (some m) peerID).1.reputationScore = 50 := by
  refine ⟨rfl, rfl, ?_⟩
  simp [CatchupMetrics.GetOrCreatePeerMetrics, hmiss]

/-- Witness for `C10_get_or_create_peer_metrics` at the empty registry. -/
theorem C10_get_or_create_peer_metrics_witness :
    (CatchupMetrics.GetOrCreatePeerMetrics none "p").1.reputationScore = 0 ∧
      (CatchupMetrics.GetOrCreatePeerMetrics none "p").2 = none ∧
      (CatchupMetrics.GetOrCreatePeerMetrics (some NewCatchupMetrics) "p").1.reputationScore
        = 50 :=
  C10_get_or_create_peer_metrics "p" NewCatchupMetrics rfl

/-! ## UTXO store data model (stores/utxo/aerospike/create.go) -/

/-- A 32-byte transaction hash, abstracted to its numeric value. -/
structure TxHash where
  val : Nat
  deriving Repr, DecidableEq

/-- A transaction output (`bt.Output`): satoshi value and locking script. -/
structure Output where
  satoshis : Nat
  lockingScript : List Nat
  deriving Repr, DecidableEq

/-- A transaction input (`bt.Input`). `baseBytes` is the go-bt serialization
`input.Bytes(false)` (third-party library), carried as opaque data; the
extended fields are the ones `GetBinsToStore` appends itself. -/
structure Input where
  baseBytes : List Nat
  previousTxSatoshis : Nat
  previousTxScript : Option (List Nat)
  deriving Repr, DecidableEq

/-- A transaction (`bt.Tx`). `outputs` entries may be nil: partial
transactions (outputs learned before inputs) arrive zero-padded. `txid`
(`tx.TxIDChainHash()`), `txSize` (`tx.Size()`), `txExtendedBytes`
(`tx.ExtendedBytes()`) and `isCoinbase` (`tx.IsCoinbase()`) are go-bt
(third-party library) computations, carried as data. -/
structure Tx where
  version : Nat
  lockTime : Nat
  inputs : List Input
  outputs : List (Option Output)
  txid : TxHash
  txSize : Nat
  txExtendedBytes : List Nat
  isCoinbase : Bool
  deriving Repr, DecidableEq

/-- Modelled from the spec: the canonical UTXO hash
`SHA256d(tx_hash ‖ u32_le(index) ‖ u64_le(satoshis) ‖ varint(len) ‖ script)`
computed by `utxo.GetUtxoHashes` / `utxo.GetFeesAndUtxoHashes` (stores/utxo
package, not in src/). The digest is embedded as an injective record of its
preimage; hash collisions are out of scope. -/
structure UtxoHash where
  txHash : TxHash
  index : Nat
  satoshis : Nat
  lockingScript : List Nat
  deriving Repr, DecidableEq

/-- Modelled from the spec: `utxo.ShouldStoreOutputAsUTXO` (stores/utxo
package, not in src/) — "store all coinbases, non-zero utxos and exceptions
from pre-genesis" (comment at the call site in create.go). The pre-Genesis
exception is a height-gated legacy case that only widens the stored set and
is not exercised by any theorem below. -/
def ShouldStoreOutputAsUTXO (isCoinbase : Bool) (output : Output) (_blockHeight : Nat) :
    Bool :=
  isCoinbase || output.satoshis != 0

/-- Modelled from the spec: the fee computed by `utxo.GetFeesAndUtxoHashes`
(stores/utxo package, not in src/): `Σ previous_output_value − Σ output_value`
(spec §4.A), truncated at zero as unsigned arithmetic. Its hash/conversion
error paths are not modelled; no theorem below depends on them. -/
def computeFee (tx : Tx) : Nat :=
  (tx.inputs.map (·.previousTxSatoshis)).sum -
    ((tx.outputs.filterMap id).map (·.satoshis)).sum

/-- The `utxos` bin content built by the output loop of `GetBinsToStore`:
entry `i` carries the UTXO hash of output `i` when that output is non-nil
and stored as a UTXO, nil otherwise. -/
def buildUtxos (txHash : TxHash) (isCoinbase : Bool) (blockHeight : Nat) :
    Nat → List (Option Output) → List (Option UtxoHash)
  | _, [] => []
  | i, none :: rest => none :: buildUtxos txHash isCoinbase blockHeight (i + 1) rest
  | i, some o :: rest =>
    (if ShouldStoreOutputAsUTXO isCoinbase o blockHeight then
      some ⟨txHash, i, o.satoshis, o.lockingScript⟩
    else none) :: buildUtxos txHash isCoinbase blockHeight (i + 1) rest

/-- `k` little-endian bytes of `n`. -/
def leBytes (k n : Nat) : List Nat :=
  (List.range k).map fun i => n / 256 ^ i % 256

/-- Bitcoin varint encoding (`bt.VarInt.Bytes`). -/
def varIntBytes (n : Nat) : List Nat :=
  if n < 0xfd then [n % 256]
  else if n ≤ 0xffff then 0xfd :: leBytes 2 n
  else if n ≤ 0xffffffff then 0xfe :: leBytes 4 n
  else 0xff :: leBytes 8 n

/-- The serialized extended input built inline by `GetBinsToStore`:
`input.Bytes(false)` followed by 8 little-endian bytes of
`PreviousTxSatoshis` and the varint-prefixed previous locking script. -/
def serializeExtendedInput (inp : Input) : List Nat :=
  inp.baseBytes ++ leBytes 8 inp.previousTxSatoshis ++
    (match inp.previousTxScript with
     | none => varIntBytes 0
     | some s => varIntBytes s.length ++ s)

/-- `output.Bytes()` (go-bt): 8 little-endian satoshi bytes, varint script
length, script. -/
def serializeOutput (o : Output) : List Nat :=
  leBytes 8 o.satoshis ++ varIntBytes o.lockingScript.length ++ o.lockingScript

/-- Bin names, mirroring the `stores/utxo/fields` package (not in src/; the
enumeration is the set of names create.go uses). -/
inductive Field where
  | txID | version | lockTime | fee | sizeInBytes | extendedSize | spentUtxos
  | isCoinbase | spendingHeight | conflicting | locked | utxos | recordUtxos
  | totalExtraRecs | blockIDs | blockHeights | subtreeIdxs | totalUtxos
  | unminedSince | createdAt | external | inputs | outputs | deleteAtHeight
  deriving Repr, DecidableEq

/-- Aerospike bin values, one constructor per value shape create.go stores. -/
inductive BinValue where
  | int (n : Int)
  | bool (b : Bool)
  | bytes (l : List Nat)
  | byteLists (l : List (List Nat))
  | optByteLists (l : List (Option (List Nat)))
  | utxoList (l : List (Option UtxoHash))
  | natList (l : List Nat)
  | intList (l : List Int)
  deriving Repr, DecidableEq

/-- A named Aerospike bin. -/
structure Bin where
  name : Field
  value : BinValue
  deriving Repr, DecidableEq

/-- Read the first bin of the given name from a record's bin list. -/
def getBin (f : Field) (shard : List Bin) : Option BinValue :=
  (shard.find? fun b => b.name == f).map (·.value)

/-- The settings create.go consults. `coinbaseMaturity` is a `uint16`
(`chaincfg.Params.CoinbaseMaturity`), cast to `uint32` at the use site. -/
structure Settings where
  utxoBatchSize : Nat
  coinbaseMaturity : Nat
  externalizeAllTransactions : Bool
  maxTxSizeInStore : Nat
  blockHeightRetention : Nat
  deriving Repr, DecidableEq

/-- Modelled from the spec: the repository error taxonomy (errors package,
not in src/; spec §7 lists the kinds as distinct). Constructors correspond
to the `errors.NewXxxError` constructor producing them.
`goPanicIndexOutOfRange` stands in for a Go runtime index panic (not an
errors value); it marks the `batches[0]` indexing of `GetBinsToStore` and is
shown unreachable. -/
inductive TErr where
  | processing
  | invalidArgument
  | txExists
  | storage
  | goPanicIndexOutOfRange
  deriving Repr, DecidableEq

/-- Structural worker for `chunkList`; the fuel argument only forces
termination and is irrelevant whenever it is at least the list length. -/
def chunkListAux : Nat → Nat → List α → List (List α)
  | 0, _, _ => []
  | _ + 1, _, [] => []
  | fuel + 1, b, x :: xs =>
    (x :: xs.take (b - 1)) :: chunkListAux fuel b (xs.drop (b - 1))

/-- The chunking loop of `splitIntoBatches`
(`for start := 0; start < len(utxos); start += batchSize`): consecutive
slices of `batchSize` elements. Faithful for `batchSize ≥ 1` (the Go loop
does not terminate for `batchSize = 0`). -/
def chunkList (batchSize : Nat) (l : List α) : List (List α) :=
  chunkListAux l.length batchSize l

theorem chunkListAux_congr (b : Nat) : ∀ (n : Nat) (l : List α), l.length ≤ n →
    ∀ f₁ f₂, l.length ≤ f₁ → l.length ≤ f₂ →
      chunkListAux f₁ b l = chunkListAux f₂ b l := by
  intro n
  induction n with
  | zero =>
    intro l hl f₁ f₂ _ _
    have : l = [] := List.length_eq_zero.mp (Nat.le_zero.mp hl)
    subst this
    cases f₁ <;> cases f₂ <;> rfl
  | succ n ih =>
    intro l hl f₁ f₂ h₁ h₂
    match l with
    | [] => cases f₁ <;> cases f₂ <;> rfl
    | x :: xs =>
      simp only [List.length_cons] at hl h₁ h₂
      obtain ⟨g₁, rfl⟩ : ∃ g, f₁ = g + 1 := ⟨f₁ - 1, by omega⟩
      obtain ⟨g₂, rfl⟩ : ∃ g, f₂ = g + 1 := ⟨f₂ - 1, by omega⟩
      show (x :: xs.take (b - 1)) :: chunkListAux g₁ b (xs.drop (b - 1)) =
        (x :: xs.take (b - 1)) :: chunkListAux g₂ b (xs.drop (b - 1))
      have hd : (xs.drop (b - 1)).length ≤ xs.length := by
        simp only [List.length_drop]
        omega
      rw [ih (xs.drop (b - 1)) (by omega) g₁ g₂ (by omega) (by omega)]

theorem chunkList_nil (b : Nat) : chunkList b ([] : List α) = [] := rfl

theorem chunkList_cons (b : Nat) (x : α) (xs : List α) :
    chunkList b (x :: xs) =
      (x :: xs.take (b - 1)) :: chunkList b (xs.drop (b - 1)) := by
  show chunkListAux (xs.length + 1) b (x :: xs) = _
  show (x :: xs.take (b - 1)) :: chunkListAux xs.length b (xs.drop (b - 1)) =
    (x :: xs.take (b - 1)) :: chunkListAux (xs.drop (b - 1)).length b (xs.drop (b - 1))
  have hd : (xs.drop (b - 1)).length ≤ xs.length := by
    simp only [List.length_drop]
    omega
  rw [chunkListAux_congr b xs.length (xs.drop (b - 1)) hd xs.length
    (xs.drop (b - 1)).length hd le_rfl]

theorem chunkList_ne_nil (b : Nat) (l : List α) (h : l ≠ []) : chunkList b l ≠ [] := by
  match l with
  | [] => exact absurd rfl h
  | x :: xs => rw [chunkList_cons]; exact List.cons_ne_nil _ _

theorem chunkList_flatten (b : Nat) (l : List α) : (chunkList b l).flatten = l := by
  have H : ∀ n (l : List α), l.length ≤ n → (chunkList b l).flatten = l := by
    intro n
    induction n with
    | zero =>
      intro l hl
      have hnil : l = [] := List.length_eq_zero.mp (Nat.le_zero.mp hl)
      subst hnil
      rw [chunkList_nil]
      rfl
    | succ n ih =>
      intro l hl
      match l with
      | [] => rw [chunkList_nil]; rfl
      | x :: xs =>
        rw [chunkList_cons, List.flatten_cons,
          ih _ (by simp only [List.length_drop]; simp at hl; omega)]
        simp [List.take_append_drop]
  exact H l.length l le_rfl

theorem chunkList_eq_singleton (b : Nat) (l : List α) (h1 : l ≠ [])
    (h2 : l.length ≤ b) : chunkList b l = [l] := by
  match l with
  | [] => exact absurd rfl h1
  | x :: xs =>
    rw [chunkList_cons]
    have hxs : xs.length ≤ b - 1 := by simp at h2; omega
    rw [List.take_of_length_le hxs, List.drop_eq_nil_of_le hxs, chunkList_nil]

theorem chunkList_of_length_succ (b : Nat) (hb : 1 ≤ b) (l : List α)
    (h : l.length = b + 1) : chunkList b l = [l.take b, l.drop b] := by
  match l with
  | [] => simp at h
  | x :: xs =>
    obtain ⟨k, rfl⟩ : ∃ k, b = k + 1 := ⟨b - 1, by omega⟩
    rw [chunkList_cons]
    simp only [Nat.add_sub_cancel]
    have h1 : xs.length = k + 1 := by simp at h; omega
    have hlen : (xs.drop k).length = 1 := by simp only [List.length_drop]; omega
    rw [chunkList_eq_singleton (k + 1) (xs.drop k)
      (by intro hc; rw [hc] at hlen; simp at hlen) (by omega)]
    simp [List.take_succ_cons, List.drop_succ_cons]

theorem sum_countP_chunkList (b : Nat) (p : α → Bool) (l : List α) :
    ((chunkList b l).map (List.countP p)).sum = l.countP p := by
  conv_rhs => rw [← chunkList_flatten b l]
  rw [List.countP_flatten]

/-- One batch of `splitIntoBatches`: the common bins plus the batch's
`utxos` slice and the count of non-nil UTXOs in that slice
(`recordUtxos`). -/
def batchBins (commonBins : List Bin) (batchUtxos : List (Option UtxoHash)) : List Bin :=
  commonBins ++
    [⟨.utxos, .utxoList batchUtxos⟩,
     ⟨.recordUtxos, .int (batchUtxos.countP (·.isSome))⟩]

/-- `splitIntoBatches`: split the UTXO list into batches of the configured
size, each carrying the common metadata bins. -/
def splitIntoBatches (batchSize : Nat) (utxos : List (Option UtxoHash))
    (commonBins : List Bin) : List (List Bin) :=
  (chunkList batchSize utxos).map (batchBins commonBins)

/-- The common bins shared by every record of a transaction (create.go,
`GetBinsToStore` lines building `commonBins`): identity and size fields, a
zero `spentUtxos` counter, the coinbase flag with its `spendingHeight`
(wrapping `uint32` addition of the maturity), and the conflicting/locked
flags. -/
def commonBinsFor (st : Settings) (tx : Tx) (blockHeight : Nat) (txHash : TxHash)
    (isCoinbase conflicting locked : Bool) (fee size extendedSize : Nat) : List Bin :=
  [⟨.txID, .bytes (leBytes 32 txHash.val)⟩,
   ⟨.version, .int tx.version⟩,
   ⟨.lockTime, .int tx.lockTime⟩,
   ⟨.fee, .int fee⟩,
   ⟨.sizeInBytes, .int size⟩,
   ⟨.extendedSize, .int extendedSize⟩,
   ⟨.spentUtxos, .int 0⟩,
   ⟨.isCoinbase, .bool isCoinbase⟩] ++
  (if isCoinbase then
    [⟨.spendingHeight, .int ((blockHeight + st.coinbaseMaturity) % 2 ^ 32 : Nat)⟩]
  else []) ++
  [⟨.conflicting, .bool conflicting⟩, ⟨.locked, .bool locked⟩]

/-- The decoration `GetBinsToStore` appends to the primary batch
(`batches[0]`): `totalExtraRecs`, block references, `totalUtxos`,
`unminedSince` when unmined, `createdAt`, then either the `external` marker
or the inline `inputs`/`outputs`. -/
def decoratePrimary (b0 : List Bin) (restLen : Nat) (blockIDs blockHeights : List Nat)
    (subtreeIdxs : List Int) (utxosLen : Nat) (blockHeight : Nat) (now : Int)
    (ext : Bool) (inputsSer : List (List Nat)) (outputsSer : List (Option (List Nat))) :
    List Bin :=
  let b1 := b0 ++
    [⟨.totalExtraRecs, .int restLen⟩,
     ⟨.blockIDs, .natList blockIDs⟩,
     ⟨.blockHeights, .natList blockHeights⟩,
     ⟨.subtreeIdxs, .intList subtreeIdxs⟩,
     ⟨.totalUtxos, .int utxosLen⟩]
  let b2 := if blockIDs = [] ∧ blockHeights = [] ∧ subtreeIdxs = [] then
      b1 ++ [⟨.unminedSince, .int blockHeight⟩]
    else b1
  let b3 := b2 ++ [⟨.createdAt, .int now⟩]
  if ext then b3 ++ [⟨.external, .bool true⟩]
  else b3 ++ [⟨.inputs, .byteLists inputsSer⟩, ⟨.outputs, .optByteLists outputsSer⟩]

/-- The `fee` variable of `GetBinsToStore`: zero for a partial transaction
(no inputs), otherwise computed from inputs and outputs. -/
def txFee (tx : Tx) : Nat := if tx.inputs = [] then 0 else computeFee tx

/-- The `size` variable of `GetBinsToStore`: left zero for a partial
transaction, otherwise `tx.Size()`. -/
def txSizeField (tx : Tx) : Nat := if tx.inputs = [] then 0 else tx.txSize

/-- The `extendedSize` variable of `GetBinsToStore`: left zero for a partial
transaction, otherwise `len(tx.ExtendedBytes())`. -/
def txExtendedSizeField (tx : Tx) : Nat :=
  if tx.inputs = [] then 0 else tx.txExtendedBytes.length

/-- The common bins of a transaction, with the fee/size fields as
`GetBinsToStore` computes them. -/
def txCommonBins (st : Settings) (tx : Tx) (blockHeight : Nat) (txHash : TxHash)
    (isCoinbase conflicting locked : Bool) : List Bin :=
  commonBinsFor st tx blockHeight txHash isCoinbase conflicting locked (txFee tx)
    (txSizeField tx) (txExtendedSizeField tx)

/-- `GetBinsToStore`: rejects empty outputs, computes fee/sizes and the
UTXO-hash list, builds the common bins, splits into batches, and decorates
the primary batch. `now` stands for `time.Now().UnixMilli()`. A transaction
producing more than one batch is promoted to `external`. The `[]` arm of the
match mirrors the unconditional `batches[0]` indexing of the source, which
would panic there; it is proved unreachable. -/
def GetBinsToStore (st : Settings) (tx : Tx) (blockHeight : Nat)
    (blockIDs blockHeights : List Nat) (subtreeIdxs : List Int) (external : Bool)
    (txHash : TxHash) (isCoinbase conflicting locked : Bool) (now : Int) :
    Except TErr (List (List Bin)) :=
  if tx.outputs = [] then .error .processing
  else
    let inputsSer : List (List Nat) :=
      if external then [] else tx.inputs.map serializeExtendedInput
    let outputsSer : List (Option (List Nat)) :=
      tx.outputs.map (Option.map serializeOutput)
    let utxos := buildUtxos txHash isCoinbase blockHeight 0 tx.outputs
    match splitIntoBatches st.utxoBatchSize utxos
      (txCommonBins st tx blockHeight txHash isCoinbase conflicting locked) with
    | [] => .error .goPanicIndexOutOfRange
    | b0 :: rest =>
      .ok (decoratePrimary b0 rest.length blockIDs blockHeights subtreeIdxs
        utxos.length blockHeight now (external || !rest.isEmpty) inputsSer
        outputsSer :: rest)

theorem buildUtxos_length (txHash : TxHash) (isCoinbase : Bool) (blockHeight : Nat)
    (i : Nat) (outputs : List (Option Output)) :
    (buildUtxos txHash isCoinbase blockHeight i outputs).length = outputs.length := by
  induction outputs generalizing i with
  | nil => rfl
  | cons o rest ih => cases o <;> simp [buildUtxos, ih]

theorem commonBinsFor_find?_recordUtxos (st : Settings) (tx : Tx) (blockHeight : Nat)
    (txHash : TxHash) (isCoinbase conflicting locked : Bool) (fee size extendedSize : Nat) :
    (commonBinsFor st tx blockHeight txHash isCoinbase conflicting locked fee size
      extendedSize).find? (fun b => b.name == Field.recordUtxos) = none := by
  cases isCoinbase <;> rfl

theorem commonBinsFor_find?_totalExtraRecs (st : Settings) (tx : Tx) (blockHeight : Nat)
    (txHash : TxHash) (isCoinbase conflicting locked : Bool) (fee size extendedSize : Nat) :
    (commonBinsFor st tx blockHeight txHash isCoinbase conflicting locked fee size
      extendedSize).find? (fun b => b.name == Field.totalExtraRecs) = none := by
  cases isCoinbase <;> rfl

theorem commonBinsFor_find?_totalUtxos (st : Settings) (tx : Tx) (blockHeight : Nat)
    (txHash : TxHash) (isCoinbase conflicting locked : Bool) (fee size extendedSize : Nat) :
    (commonBinsFor st tx blockHeight txHash isCoinbase conflicting locked fee size
      extendedSize).find? (fun b => b.name == Field.totalUtxos) = none := by
  cases isCoinbase <;> rfl

theorem commonBinsFor_find?_external (st : Settings) (tx : Tx) (blockHeight : Nat)
    (txHash : TxHash) (isCoinbase conflicting locked : Bool) (fee size extendedSize : Nat) :
    (commonBinsFor st tx blockHeight txHash isCoinbase conflicting locked fee size
      extendedSize).find? (fun b => b.name == Field.external) = none := by
  cases isCoinbase <;> rfl

theorem commonBinsFor_find?_utxos (st : Settings) (tx : Tx) (blockHeight : Nat)
    (txHash : TxHash) (isCoinbase conflicting locked : Bool) (fee size extendedSize : Nat) :
    (commonBinsFor st tx blockHeight txHash isCoinbase conflicting locked fee size
      extendedSize).find? (fun b => b.name == Field.utxos) = none := by
  cases isCoinbase <;> rfl

theorem commonBinsFor_find?_spendingHeight (st : Settings) (tx : Tx) (blockHeight : Nat)
    (txHash : TxHash) (isCoinbase conflicting locked : Bool) (fee size extendedSize : Nat) :
    (commonBinsFor st tx blockHeight txHash isCoinbase conflicting locked fee size
      extendedSize).find? (fun b => b.name == Field.spendingHeight) =
      (if isCoinbase then
        some ⟨.spendingHeight, .int ((blockHeight + st.coinbaseMaturity) % 2 ^ 32 : Nat)⟩
      else none) := by
  cases isCoinbase <;> rfl

theorem batchBins_find?_recordUtxos (common : List Bin) (c : List (Option UtxoHash))
    (h : common.find? (fun b => b.name == Field.recordUtxos) = none) :
    (batchBins common c).find? (fun b => b.name == Field.recordUtxos) =
      some ⟨.recordUtxos, .int (c.countP (·.isSome))⟩ := by
  rw [batchBins, List.find?_append, h, Option.none_or]
  rfl

theorem batchBins_find?_utxos (common : List Bin) (c : List (Option UtxoHash))
    (h : common.find? (fun b => b.name == Field.utxos) = none) :
    (batchBins common c).find? (fun b => b.name == Field.utxos) =
      some ⟨.utxos, .utxoList c⟩ := by
  rw [batchBins, List.find?_append, h, Option.none_or]
  rfl

theorem batchBins_find?_spendingHeight (common : List Bin) (c : List (Option UtxoHash)) :
    (batchBins common c).find? (fun b => b.name == Field.spendingHeight) =
      common.find? (fun b => b.name == Field.spendingHeight) := by
  rw [batchBins, List.find?_append]
  have h2 : List.find? (fun b => b.name == Field.spendingHeight)
      [(⟨.utxos, .utxoList c⟩ : Bin),
       ⟨.recordUtxos, .int (c.countP (·.isSome))⟩] = none := rfl
  rw [h2, Option.or_none]

theorem batchBins_find?_totalExtraRecs (common : List Bin) (c : List (Option UtxoHash))
    (h : common.find? (fun b => b.name == Field.totalExtraRecs) = none) :
    (batchBins common c).find? (fun b => b.name == Field.totalExtraRecs) = none := by
  rw [batchBins, List.find?_append, h, Option.none_or]
  rfl

theorem batchBins_find?_totalUtxos (common : List Bin) (c : List (Option UtxoHash))
    (h : common.find? (fun b => b.name == Field.totalUtxos) = none) :
    (batchBins common c).find? (fun b => b.name == Field.totalUtxos) = none := by
  rw [batchBins, List.find?_append, h, Option.none_or]
  rfl

theorem batchBins_find?_external (common : List Bin) (c : List (Option UtxoHash))
    (h : common.find? (fun b => b.name == Field.external) = none) :
    (batchBins common c).find? (fun b => b.name == Field.external) = none := by
  rw [batchBins, List.find?_append, h, Option.none_or]
  rfl

theorem getBin_decoratePrimary_totalExtraRecs (b0 : List Bin) (restLen : Nat)
    (blockIDs blockHeights : List Nat) (subtreeIdxs : List Int)
    (utxosLen blockHeight : Nat) (now : Int) (ext : Bool)
    (inputsSer : List (List Nat)) (outputsSer : List (Option (List Nat)))
    (h : b0.find? (fun b => b.name == Field.totalExtraRecs) = none) :
    getBin .totalExtraRecs (decoratePrimary b0 restLen blockIDs blockHeights
      subtreeIdxs utxosLen blockHeight now ext inputsSer outputsSer) =
      some (.int restLen) := by
  rw [getBin, decoratePrimary]
  by_cases hm : blockIDs = [] ∧ blockHeights = [] ∧ subtreeIdxs = [] <;>
    cases ext <;>
    simp [hm, List.find?_append, List.find?, h, Option.none_or]

theorem getBin_decoratePrimary_totalUtxos (b0 : List Bin) (restLen : Nat)
    (blockIDs blockHeights : List Nat) (subtreeIdxs : List Int)
    (utxosLen blockHeight : Nat) (now : Int) (ext : Bool)
    (inputsSer : List (List Nat)) (outputsSer : List (Option (List Nat)))
    (h : b0.find? (fun b => b.name == Field.totalUtxos) = none) :
    getBin .totalUtxos (decoratePrimary b0 restLen blockIDs blockHeights
      subtreeIdxs utxosLen blockHeight now ext inputsSer outputsSer) =
      some (.int utxosLen) := by
  rw [getBin, decoratePrimary]
  by_cases hm : blockIDs = [] ∧ blockHeights = [] ∧ subtreeIdxs = [] <;>
    cases ext <;>
    simp [hm, List.find?_append, List.find?, h, Option.none_or] <;>
    first
    | rfl
    | exact ⟨_, rfl, rfl⟩

theorem getBin_decoratePrimary_external (b0 : List Bin) (restLen : Nat)
    (blockIDs blockHeights : List Nat) (subtreeIdxs : List Int)
    (utxosLen blockHeight : Nat) (now : Int) (ext : Bool)
    (inputsSer : List (List Nat)) (outputsSer : List (Option (List Nat)))
    (h : b0.find? (fun b => b.name == Field.external) = none) :
    getBin .external (decoratePrimary b0 restLen blockIDs blockHeights
      subtreeIdxs utxosLen blockHeight now ext inputsSer outputsSer) =
      (if ext then some (.bool true) else none) := by
  rw [getBin, decoratePrimary]
  by_cases hm : blockIDs = [] ∧ blockHeights = [] ∧ subtreeIdxs = [] <;>
    cases ext <;>
    simp [hm, List.find?_append, List.find?, h, Option.none_or] <;>
    first
    | rfl
    | exact ⟨_, rfl, rfl⟩

theorem getBin_decoratePrimary_spendingHeight (b0 : List Bin) (restLen : Nat)
    (blockIDs blockHeights : List Nat) (subtreeIdxs : List Int)
    (utxosLen blockHeight : Nat) (now : Int) (ext : Bool)
    (inputsSer : List (List Nat)) (outputsSer : List (Option (List Nat))) :
    getBin .spendingHeight (decoratePrimary b0 restLen blockIDs blockHeights
      subtreeIdxs utxosLen blockHeight now ext inputsSer outputsSer) =
      getBin .spendingHeight b0 := by
  rw [getBin, decoratePrimary, getBin]
  by_cases hm : blockIDs = [] ∧ blockHeights = [] ∧ subtreeIdxs = [] <;>
    cases ext <;>
    cases hb : b0.find? (fun b => b.name == Field.spendingHeight) <;>
    simp [hm, List.find?_append, List.find?, hb, Option.none_or, Option.or] <;>
    rfl

theorem getBin_decoratePrimary_recordUtxos (b0 : List Bin) (restLen : Nat)
    (blockIDs blockHeights : List Nat) (subtreeIdxs : List Int)
    (utxosLen blockHeight : Nat) (now : Int) (ext : Bool)
    (inputsSer : List (List Nat)) (outputsSer : List (Option (List Nat))) :
    getBin .recordUtxos (decoratePrimary b0 restLen blockIDs blockHeights
      subtreeIdxs utxosLen blockHeight now ext inputsSer outputsSer) =
      getBin .recordUtxos b0 := by
  rw [getBin, decoratePrimary, getBin]
  by_cases hm : blockIDs = [] ∧ blockHeights = [] ∧ subtreeIdxs = [] <;>
    cases ext <;>
    cases hb : b0.find? (fun b => b.name == Field.recordUtxos) <;>
    simp [hm, List.find?_append, List.find?, hb, Option.none_or, Option.or] <;>
    rfl

theorem GetBinsToStore_shape (st : Settings) (tx : Tx) (blockHeight : Nat)
    (blockIDs blockHeights : List Nat) (subtreeIdxs : List Int) (external : Bool)
    (txHash : TxHash) (isCoinbase conflicting locked : Bool) (now : Int)
    (houts : tx.outputs ≠ []) (c0 : List (Option UtxoHash)) (cs : List (List (Option UtxoHash)))
    (hchunk : chunkList st.utxoBatchSize
      (buildUtxos txHash isCoinbase blockHeight 0 tx.outputs) = c0 :: cs) :
    GetBinsToStore st tx blockHeight blockIDs blockHeights subtreeIdxs external
      txHash isCoinbase conflicting locked now =
      .ok (decoratePrimary
        (batchBins (txCommonBins st tx blockHeight txHash isCoinbase conflicting locked) c0)
        cs.length blockIDs blockHeights subtreeIdxs
        (buildUtxos txHash isCoinbase blockHeight 0 tx.outputs).length blockHeight now
        (external || !cs.isEmpty)
        (if external then [] else tx.inputs.map serializeExtendedInput)
        (tx.outputs.map (Option.map serializeOutput)) ::
        cs.map (batchBins (txCommonBins st tx blockHeight txHash isCoinbase conflicting
          locked))) := by
  rw [GetBinsToStore, if_neg houts]
  simp only [splitIntoBatches, hchunk, List.map_cons]
  have hempty : (cs.map (batchBins (txCommonBins st tx blockHeight txHash isCoinbase
      conflicting locked))).isEmpty = cs.isEmpty := by
    cases cs <;> rfl
  simp only [List.length_map, hempty]

/-! ## Store state: blob store, KV records, external write protocol -/

/-- Blob-store file-type discriminator (`fileformat.FileTypeTx` /
`FileTypeOutputs`). -/
inductive FileType where
  | tx
  | outputs
  deriving Repr, DecidableEq

/-- `utxopersister.UTXO` — one entry of the outputs wrapper. -/
structure UTXOEntry where
  index : Nat
  value : Nat
  script : List Nat
  deriving Repr, DecidableEq

/-- `utxopersister.UTXOWrapper` — the payload written to the blob store for
partial transactions. Its `Bytes()` serialization (utxopersister package,
outside the store) is kept structural. -/
structure UTXOWrapper where
  txID : TxHash
  height : Nat
  coinbase : Bool
  utxos : List UTXOEntry
  deriving Repr, DecidableEq

/-- Content written to the blob store. -/
inductive BlobData where
  | txBytes (bytes : List Nat)
  | outputsData (w : UTXOWrapper)
  deriving Repr, DecidableEq

/-- The wrapper-entry loop shared by `sendStoreBatch` and
`StorePartialTransactionExternally`: skip nil outputs, keep the output
index as the UTXO index. -/
def wrapperEntries : Nat → List (Option Output) → List UTXOEntry
  | _, [] => []
  | i, none :: rest => wrapperEntries (i + 1) rest
  | i, some o :: rest => ⟨i, o.satoshis, o.lockingScript⟩ :: wrapperEntries (i + 1) rest

/-- Build the `UTXOWrapper` for a partial transaction. -/
def mkUTXOWrapper (txHash : TxHash) (blockHeight : Nat) (isCoinbase : Bool)
    (outputs : List (Option Output)) : UTXOWrapper :=
  { txID := txHash, height := blockHeight, coinbase := isCoinbase,
    utxos := wrapperEntries 0 outputs }

/-- Combined state of the external blob store and the Aerospike KV store.
Records are keyed by `(txHash, recordIndex)`: `uaerospike`'s
`CalculateKeySourceInternal` key derivation (outside src/) is injective per
spec §6 (primary key is the raw hash, extension keys digest
`tx_hash ‖ index`), so the pair is kept unhashed. -/
structure StoreState where
  blobs : List ((TxHash × FileType) × BlobData)
  kv : List ((TxHash × Nat) × List Bin)
  deriving Repr, DecidableEq

/-- The empty store. -/
def emptyStore : StoreState := ⟨[], []⟩

/-- Fault environment: transient failures injected at each external call
site. `false` everywhere is a healthy run. `kvPutFails i` injects a
non-KeyExists failure on the external-loop write of record `i`. -/
structure Env where
  blobSetFails : Bool
  kvPutFails : Nat → Bool
  batchWriteFails : Bool
  batchRecordTooBig : Bool

/-- The healthy environment: no injected faults. -/
def healthyEnv : Env := ⟨false, fun _ => false, false, false⟩

/-- Result of a blob-store `Set`. -/
inductive BlobRes where
  | ok
  | alreadyExists
  | ioError
  deriving Repr, DecidableEq

/-- Result of a KV put / batch write. -/
inductive KVRes where
  | ok
  | keyExists
  | otherError
  deriving Repr, DecidableEq

/-- Blob-store `Set` (spec §4.B contract): idempotent, content-addressed;
re-putting an existing address reports `AlreadyExists`; an injected fault
reports an I/O error and leaves the store unchanged. -/
def blobSet (fails : Bool) (st : StoreState) (h : TxHash) (ft : FileType)
    (d : BlobData) : StoreState × BlobRes :=
  if fails then (st, .ioError)
  else if (st.blobs.lookup (h, ft)).isSome then (st, .alreadyExists)
  else ({ st with blobs := ((h, ft), d) :: st.blobs }, .ok)

/-- A single create-only KV write (`RecordExistsAction = CREATE_ONLY`): an
existing key reports `KeyExists` and keeps the stored bins; an injected
fault reports a non-KeyExists error. -/
def putRecordCreateOnly (fails : Bool) (st : StoreState) (key : TxHash × Nat)
    (bins : List Bin) : StoreState × KVRes :=
  if fails then (st, .otherError)
  else if (st.kv.lookup key).isSome then (st, .keyExists)
  else ({ st with kv := (key, bins) :: st.kv }, .ok)

/-- The shard-write loop shared verbatim by `StoreTransactionExternally` and
`StorePartialTransactionExternally`: create-only put per record; `KeyExists`
is skipped ("finish off previous attempt"); any other failure sends a
Processing error and aborts. Returns the post-state, the value sent on the
`done` channel (`none` = success), and the indices attempted in order. -/
def storeExternalLoop (env : Env) (txHash : TxHash) (st : StoreState) :
    List (Nat × List Bin) → StoreState × Option TErr × List Nat
  | [] => (st, none, [])
  | (i, bins) :: rest =>
    match putRecordCreateOnly (env.kvPutFails i) st (txHash, i) bins with
    | (st', .otherError) => (st', some .processing, [i])
    | (st', _) =>
      let (st'', res, tr) := storeExternalLoop env txHash st' rest
      (st'', res, i :: tr)

/-- `StoreTransactionExternally`: write the extended transaction to the blob
store (`AlreadyExists` tolerated; any other failure is sent as a TxExists
error — the constructor the source uses), then write the records in reverse
index order so the primary record (index 0) lands last. -/
def StoreTransactionExternally (env : Env) (st : StoreState) (txHash : TxHash)
    (tx : Tx) (binsToStore : List (List Bin)) : StoreState × Option TErr × List Nat :=
  match blobSet env.blobSetFails st txHash .tx (.txBytes tx.txExtendedBytes) with
  | (st1, .ioError) => (st1, some .txExists, [])
  | (st1, _) => storeExternalLoop env txHash st1 binsToStore.enum.reverse

/-- `StorePartialTransactionExternally`: like `StoreTransactionExternally`
but writes the `UTXOWrapper` output set under the `OUTPUTS` file type. -/
def StorePartialTransactionExternally (env : Env) (st : StoreState) (txHash : TxHash)
    (tx : Tx) (blockHeight : Nat) (isCoinbase : Bool) (binsToStore : List (List Bin)) :
    StoreState × Option TErr × List Nat :=
  let w := mkUTXOWrapper txHash blockHeight isCoinbase tx.outputs
  match blobSet env.blobSetFails st txHash .outputs (.outputsData w) with
  | (st1, .ioError) => (st1, some .txExists, [])
  | (st1, _) => storeExternalLoop env txHash st1 binsToStore.enum.reverse

/-- A transaction queued for batch storage (`BatchStoreItem`; the `done`
channel is replaced by the returned `Option TErr`). -/
structure BatchStoreItem where
  txHash : TxHash
  isCoinbase : Bool
  tx : Tx
  blockHeight : Nat
  blockIDs : List Nat
  blockHeights : List Nat
  subtreeIdxs : List Int
  lockTime : Nat
  conflicting : Bool
  locked : Bool
  deriving Repr, DecidableEq

/-- `sendStoreBatch` specialized to a singleton batch (`Create` submits one
item; the batcher only concatenates items). Decides external storage from
the configured force-flag and the extended size, prepares bins, for
multi-record transactions delegates to the external write protocol, for
single-record external transactions writes the blob first, then performs
the create-only batch write: `KeyExists` becomes a TxExists error,
`RECORD_TOO_BIG` re-prepares the bins as external and delegates, any other
failure becomes a Storage error. -/
def sendStoreBatchOne (env : Env) (st : StoreState) (settings : Settings)
    (item : BatchStoreItem) (now : Int) : StoreState × Option TErr :=
  let extendedSize :=
    if item.tx.inputs = [] then
      ((item.tx.outputs.filterMap id).map fun o => (serializeOutput o).length).sum
    else item.tx.txExtendedBytes.length
  let external :=
    if extendedSize > settings.maxTxSizeInStore then true
    else settings.externalizeAllTransactions
  match GetBinsToStore settings item.tx item.blockHeight item.blockIDs
    item.blockHeights item.subtreeIdxs external item.txHash item.isCoinbase
    item.conflicting item.locked now with
  | .error _ => (st, some .processing)
  | .ok binsToStore =>
    if 1 < binsToStore.length then
      if item.tx.inputs = [] then
        let (st', res, _) := StorePartialTransactionExternally env st item.txHash
          item.tx item.blockHeight item.isCoinbase binsToStore
        (st', res)
      else
        let (st', res, _) := StoreTransactionExternally env st item.txHash item.tx
          binsToStore
        (st', res)
    else
      let blobStep : StoreState × Option TErr :=
        if external then
          if item.tx.inputs = [] then
            let w := mkUTXOWrapper item.txHash item.blockHeight item.isCoinbase
              item.tx.outputs
            match blobSet env.blobSetFails st item.txHash .outputs (.outputsData w) with
            | (_, .ioError) => (st, some .txExists)
            | (st1, _) => (st1, none)
          else
            match blobSet env.blobSetFails st item.txHash .tx
              (.txBytes item.tx.txExtendedBytes) with
            | (_, .ioError) => (st, some .txExists)
            | (st1, _) => (st1, none)
        else (st, none)
      match blobStep with
      | (st1, some e) => (st1, some e)
      | (st1, none) =>
        let putBins :=
          if item.conflicting then
            (binsToStore.headD []) ++
              [⟨.deleteAtHeight,
                .int (item.blockHeight + settings.blockHeightRetention)⟩]
          else binsToStore.headD []
        if env.batchRecordTooBig then
          match GetBinsToStore settings item.tx item.blockHeight item.blockIDs
            item.blockHeights item.subtreeIdxs true item.txHash item.isCoinbase
            item.conflicting item.locked now with
          | .error _ => (st1, some .processing)
          | .ok binsToStore2 =>
            if item.tx.inputs = [] then
              let (st', res, _) := StorePartialTransactionExternally env st1
                item.txHash item.tx item.blockHeight item.isCoinbase binsToStore2
              (st', res)
            else
              let (st', res, _) := StoreTransactionExternally env st1 item.txHash
                item.tx binsToStore2
              (st', res)
        else if env.batchWriteFails then (st1, some .storage)
        else
          match putRecordCreateOnly false st1 (item.txHash, 0) putBins with
          | (st2, .ok) => (st2, none)
          | (st2, .keyExists) => (st2, some .txExists)
          | (st2, .otherError) => (st2, some .storage)

/-- `CreateOptions` (`utxo.CreateOptions`): overrides and mined-block info
(`(blockID, blockHeight, subtreeIdx)` tuples). -/
structure CreateOptions where
  txID : Option TxHash := none
  isCoinbase : Option Bool := none
  minedBlockInfos : List (Nat × Nat × Int) := []
  conflicting : Bool := false
  locked : Bool := false
  deriving Repr, DecidableEq

/-- `Create`: resolve options, build the `BatchStoreItem` and process it
(the batcher only coalesces items the worker then hands to
`sendStoreBatch`; with the batcher disabled the call is direct). The
metadata computation `util.TxMetaDataFromTx` and the
conflicting-parent bookkeeping `updateParentConflictingChildren` touch no
claim below and are elided; the `conflicting` flag still drives the
`deleteAtHeight` bin. -/
def Create (env : Env) (st : StoreState) (settings : Settings) (tx : Tx)
    (blockHeight : Nat) (opts : CreateOptions) (now : Int) :
    StoreState × Option TErr :=
  let txHash := opts.txID.getD tx.txid
  let isCoinbase := opts.isCoinbase.getD tx.isCoinbase
  let item : BatchStoreItem :=
    { txHash := txHash
      isCoinbase := isCoinbase
      tx := tx
      blockHeight := blockHeight
      blockIDs := opts.minedBlockInfos.map (·.1)
      blockHeights := opts.minedBlockInfos.map (·.2.1)
      subtreeIdxs := opts.minedBlockInfos.map (·.2.2)
      lockTime := tx.lockTime
      conflicting := opts.conflicting
      locked := opts.locked }
  sendStoreBatchOne env st settings item now

/-! ## Concrete sample inputs for witnesses and counterexamples -/

/-- Sample settings: batch size 2 keeps multi-record scenarios small. -/
def sampleSettings : Settings := ⟨2, 100, false, 1000000, 288⟩

/-- A spendable sample output. -/
def sampleOutput : Output := ⟨5000, [81]⟩

/-- A sample extended input. -/
def sampleInput : Input := ⟨[170], 10000, some [81]⟩

/-- A sample non-coinbase transaction with the given outputs. -/
def mkSampleTx (outs : List (Option Output)) : Tx :=
  { version := 1, lockTime := 0, inputs := [sampleInput], outputs := outs,
    txid := ⟨7⟩, txSize := 100, txExtendedBytes := [1, 2, 3], isCoinbase := false }

/-- A sample partial transaction (no inputs) with the given outputs. -/
def mkSamplePartialTx (outs : List (Option Output)) : Tx :=
  { version := 1, lockTime := 0, inputs := [], outputs := outs,
    txid := ⟨9⟩, txSize := 0, txExtendedBytes := [], isCoinbase := false }

/-! ## Claims -/

theorem splitIntoBatches_ne_nil_of_outputs (batchSize : Nat)
    (txHash : TxHash) (isCoinbase : Bool) (blockHeight : Nat)
    (outputs : List (Option Output)) (houts : outputs ≠ [])
    (commonBins : List Bin) :
    splitIntoBatches batchSize (buildUtxos txHash isCoinbase blockHeight 0 outputs)
      commonBins ≠ [] := by
  have hne : buildUtxos txHash isCoinbase blockHeight 0 outputs ≠ [] := by
    intro hc
    have hlen := buildUtxos_length txHash isCoinbase blockHeight 0 outputs
    rw [hc] at hlen
    exact houts (List.length_eq_zero.mp hlen.symm)
  have hchunk := chunkList_ne_nil batchSize _ hne
  rw [splitIntoBatches]
  simp only [ne_eq, List.map_eq_nil_iff]
  exact hchunk

/-- **C9.** For every transaction with at least one output (with the batch
size at least 1, the domain on which the chunking loop is faithful),
`splitIntoBatches` returns at least one batch, so the `batches[0]` accesses
of `GetBinsToStore` are in bounds; a zero-output transaction is rejected
with a Processing error before splitting, making the `batches[0]` indexing
panic unreachable on every input. -/
theorem C9_split_nonempty_no_index_panic (st : Settings) (tx : Tx)
    (blockHeight : Nat) (blockIDs blockHeights : List Nat) (subtreeIdxs : List Int)
    (external : Bool) (txHash : TxHash) (isCoinbase conflicting locked : Bool)
    (now : Int) (_hb : 1 ≤ st.utxoBatchSize) :
    (tx.outputs ≠ [] → ∀ commonBins,
      splitIntoBatches st.utxoBatchSize
        (buildUtxos txHash isCoinbase blockHeight 0 tx.outputs) commonBins ≠ []) ∧
    (tx.outputs = [] →
      GetBinsToStore st tx blockHeight blockIDs blockHeights subtreeIdxs external
        txHash isCoinbase conflicting locked now = .error .processing) ∧
    GetBinsToStore st tx blockHeight blockIDs blockHeights subtreeIdxs external
      txHash isCoinbase conflicting locked now ≠ .error .goPanicIndexOutOfRange := by
  refine ⟨fun houts commonBins => splitIntoBatches_ne_nil_of_outputs _ _ _ _ _ houts _,
    fun houts => by rw [GetBinsToStore, if_pos houts], ?_⟩
  by_cases houts : tx.outputs = []
  · rw [GetBinsToStore, if_pos houts]
    simp
  · have hne : buildUtxos txHash isCoinbase blockHeight 0 tx.outputs ≠ [] := by
      intro hc
      have hlen := buildUtxos_length txHash isCoinbase blockHeight 0 tx.outputs
      rw [hc] at hlen
      exact houts (List.length_eq_zero.mp hlen.symm)
    obtain ⟨c0, cs, hchunk⟩ : ∃ c0 cs,
        chunkList st.utxoBatchSize
          (buildUtxos txHash isCoinbase blockHeight 0 tx.outputs) = c0 :: cs := by
      cases h : chunkList st.utxoBatchSize
          (buildUtxos txHash isCoinbase blockHeight 0 tx.outputs) with
      | nil => exact absurd h (chunkList_ne_nil _ _ hne)
      | cons c0 cs => exact ⟨c0, cs, rfl⟩
    rw [GetBinsToStore_shape st tx blockHeight blockIDs blockHeights subtreeIdxs
      external txHash isCoinbase conflicting locked now houts c0 cs hchunk]
    simp

/-- Witness for `C9_split_nonempty_no_index_panic` at a concrete
one-output transaction. -/
theorem C9_witness :
    ((mkSampleTx [some sampleOutput]).outputs ≠ [] → ∀ commonBins,
      splitIntoBatches sampleSettings.utxoBatchSize
        (buildUtxos ⟨7⟩ false 0 0 (mkSampleTx [some sampleOutput]).outputs)
        commonBins ≠ []) ∧
    ((mkSampleTx [some sampleOutput]).outputs = [] →
      GetBinsToStore sampleSettings (mkSampleTx [some sampleOutput]) 0 [] [] []
        false ⟨7⟩ false false false 0 = .error .processing) ∧
    GetBinsToStore sampleSettings (mkSampleTx [some sampleOutput]) 0 [] [] []
      false ⟨7⟩ false false false 0 ≠ .error .goPanicIndexOutOfRange :=
  C9_split_nonempty_no_index_panic sampleSettings (mkSampleTx [some sampleOutput])
    0 [] [] [] false ⟨7⟩ false false false 0 (by decide)

/-- The primary record's bins of a successful `GetBinsToStore` result. -/
def primaryBinsOf (r : Except TErr (List (List Bin))) : List Bin :=
  match r with
  | .ok (b0 :: _) => b0
  | _ => []

/-- The `recordUtxos` counter stored in a record's bins. -/
def recordUtxosVal (shard : List Bin) : Nat :=
  match getBin .recordUtxos shard with
  | some (.int n) => n.toNat
  | _ => 0

/-- The `totalUtxos` counter stored in a record's bins. -/
def totalUtxosVal (shard : List Bin) : Nat :=
  match getBin .totalUtxos shard with
  | some (.int n) => n.toNat
  | _ => 0

/-- **C8.** (counterexample) A coinbase transaction created at block height
`2^32 − 1` with coinbase maturity 100 stores `spending_height = 99`
(`uint32` wrap-around), not `blockHeight + maturity = 4294967395`. -/
theorem C8_counterexample :
    getBin .spendingHeight (primaryBinsOf (GetBinsToStore sampleSettings
      (mkSampleTx [some sampleOutput]) 4294967295 [] [] [] false ⟨7⟩ true false
      false 0)) = some (.int 99) ∧
    (99 : Int) ≠ ((4294967295 : Int) + 100) := by
  decide

/-- **C8.** (amended) For every coinbase transaction created at block height
`h`, the stored primary record's `spending_height` equals
`(h + coinbase_maturity) mod 2^32` — the source adds the maturity with
wrapping `uint32` arithmetic, so the claimed `h + coinbase_maturity` holds
exactly when that sum stays below `2^32`. -/
theorem C8_spending_height (st : Settings) (tx : Tx) (blockHeight : Nat)
    (blockIDs blockHeights : List Nat) (subtreeIdxs : List Int) (external : Bool)
    (txHash : TxHash) (conflicting locked : Bool) (now : Int)
    (_hb : 1 ≤ st.utxoBatchSize) (houts : tx.outputs ≠ []) :
    getBin .spendingHeight (primaryBinsOf (GetBinsToStore st tx blockHeight
      blockIDs blockHeights subtreeIdxs external txHash true conflicting locked
      now)) = some (.int ((blockHeight + st.coinbaseMaturity) % 2 ^ 32 : Nat)) := by
  have hne : buildUtxos txHash true blockHeight 0 tx.outputs ≠ [] := by
    intro hc
    have hlen := buildUtxos_length txHash true blockHeight 0 tx.outputs
    rw [hc] at hlen
    exact houts (List.length_eq_zero.mp hlen.symm)
  obtain ⟨c0, cs, hchunk⟩ : ∃ c0 cs,
      chunkList st.utxoBatchSize
        (buildUtxos txHash true blockHeight 0 tx.outputs) = c0 :: cs := by
    cases h : chunkList st.utxoBatchSize
        (buildUtxos txHash true blockHeight 0 tx.outputs) with
    | nil => exact absurd h (chunkList_ne_nil _ _ hne)
    | cons c0 cs => exact ⟨c0, cs, rfl⟩
  rw [GetBinsToStore_shape st tx blockHeight blockIDs blockHeights subtreeIdxs
    external txHash true conflicting locked now houts c0 cs hchunk]
  show getBin Field.spendingHeight (decoratePrimary _ _ _ _ _ _ _ _ _ _ _) = _
  rw [getBin_decoratePrimary_spendingHeight, getBin, batchBins_find?_spendingHeight,
    txCommonBins, commonBinsFor_find?_spendingHeight]
  rfl

/-- Witness for `C8_spending_height` at a one-output coinbase transaction at
height 5 with maturity 100: the stored `spending_height` is 105. -/
theorem C8_spending_height_witness :
    getBin .spendingHeight (primaryBinsOf (GetBinsToStore sampleSettings
      (mkSampleTx [some sampleOutput]) 5 [] [] [] false ⟨7⟩ true false false 0)) =
      some (.int ((5 + sampleSettings.coinbaseMaturity) % 2 ^ 32 : Nat)) :=
  C8_spending_height sampleSettings (mkSampleTx [some sampleOutput]) 5 [] [] []
    false ⟨7⟩ false false 0 (by decide) (by decide)

/-- **C7.** For every transaction handled below the external-size threshold
with the externalize-all option off (both conditions make `sendStoreBatch`
pass `external = false`): with exactly `utxo_batch_size` outputs,
`GetBinsToStore` produces a single record with `totalExtraRecs = 0` and no
`external` bin; with `utxo_batch_size + 1` outputs it produces exactly two
records, the primary is tagged `external`, and the extension's `utxos` slice
holds exactly one entry. -/
theorem C7_batch_boundary (st : Settings) (blockHeight : Nat)
    (blockIDs blockHeights : List Nat) (subtreeIdxs : List Int) (txHash : TxHash)
    (isCoinbase conflicting locked : Bool) (now : Int)
    (hb : 1 ≤ st.utxoBatchSize) :
    (∀ tx : Tx, tx.outputs.length = st.utxoBatchSize →
      ∃ b0, GetBinsToStore st tx blockHeight blockIDs blockHeights subtreeIdxs
          false txHash isCoinbase conflicting locked now = .ok [b0] ∧
        getBin .totalExtraRecs b0 = some (.int 0) ∧
        getBin .external b0 = none) ∧
    (∀ tx : Tx, tx.outputs.length = st.utxoBatchSize + 1 →
      ∃ b0 b1, GetBinsToStore st tx blockHeight blockIDs blockHeights subtreeIdxs
          false txHash isCoinbase conflicting locked now = .ok [b0, b1] ∧
        getBin .external b0 = some (.bool true) ∧
        ∃ l, getBin .utxos b1 = some (.utxoList l) ∧ l.length = 1) := by
  constructor
  · intro tx hlen
    have houts : tx.outputs ≠ [] := by
      intro hc
      rw [hc] at hlen
      simp at hlen
      omega
    have hulen : (buildUtxos txHash isCoinbase blockHeight 0 tx.outputs).length =
        st.utxoBatchSize := by
      rw [buildUtxos_length, hlen]
    have hne : buildUtxos txHash isCoinbase blockHeight 0 tx.outputs ≠ [] := by
      intro hc
      rw [hc] at hulen
      simp at hulen
      omega
    have hchunk := chunkList_eq_singleton st.utxoBatchSize
      (buildUtxos txHash isCoinbase blockHeight 0 tx.outputs) hne (le_of_eq hulen)
    have hres := GetBinsToStore_shape st tx blockHeight blockIDs blockHeights
      subtreeIdxs false txHash isCoinbase conflicting locked now houts _ [] hchunk
    refine ⟨_, hres, ?_, ?_⟩
    · rw [getBin_decoratePrimary_totalExtraRecs]
      · rfl
      · apply batchBins_find?_totalExtraRecs
        simp only [txCommonBins]
        exact commonBinsFor_find?_totalExtraRecs _ _ _ _ _ _ _ _ _ _
    · rw [getBin_decoratePrimary_external]
      · rfl
      · apply batchBins_find?_external
        simp only [txCommonBins]
        exact commonBinsFor_find?_external _ _ _ _ _ _ _ _ _ _
  · intro tx hlen
    have houts : tx.outputs ≠ [] := by
      intro hc
      rw [hc] at hlen
      simp at hlen
    have hulen : (buildUtxos txHash isCoinbase blockHeight 0 tx.outputs).length =
        st.utxoBatchSize + 1 := by
      rw [buildUtxos_length, hlen]
    have hchunk := chunkList_of_length_succ st.utxoBatchSize hb
      (buildUtxos txHash isCoinbase blockHeight 0 tx.outputs) hulen
    have hdroplen : ((buildUtxos txHash isCoinbase blockHeight 0
        tx.outputs).drop st.utxoBatchSize).length = 1 := by
      simp only [List.length_drop, hulen]
      omega
    have hres := GetBinsToStore_shape st tx blockHeight blockIDs blockHeights
      subtreeIdxs false txHash isCoinbase conflicting locked now houts _
      [(buildUtxos txHash isCoinbase blockHeight 0 tx.outputs).drop
        st.utxoBatchSize] hchunk
    refine ⟨_, _, hres, ?_, ?_⟩
    · rw [getBin_decoratePrimary_external]
      · rfl
      · apply batchBins_find?_external
        simp only [txCommonBins]
        exact commonBinsFor_find?_external _ _ _ _ _ _ _ _ _ _
    · refine ⟨(buildUtxos txHash isCoinbase blockHeight 0 tx.outputs).drop
        st.utxoBatchSize, ?_, hdroplen⟩
      rw [getBin, batchBins_find?_utxos]
      · rfl
      · simp only [txCommonBins]
        exact commonBinsFor_find?_utxos _ _ _ _ _ _ _ _ _ _

/-- Witness for `C7_batch_boundary`: with batch size 2, a 2-output
transaction yields one record without the external tag and a 3-output
transaction yields two records, external, with a single-entry extension. -/
theorem C7_batch_boundary_witness :
    (∃ b0, GetBinsToStore sampleSettings
        (mkSampleTx [some sampleOutput, some sampleOutput]) 0 [] [] [] false ⟨7⟩
        false false false 0 = .ok [b0] ∧
      getBin .totalExtraRecs b0 = some (.int 0) ∧
      getBin .external b0 = none) ∧
    (∃ b0 b1, GetBinsToStore sampleSettings
        (mkSampleTx [some sampleOutput, some sampleOutput, some sampleOutput]) 0
        [] [] [] false ⟨7⟩ false false false 0 = .ok [b0, b1] ∧
      getBin .external b0 = some (.bool true) ∧
      ∃ l, getBin .utxos b1 = some (.utxoList l) ∧ l.length = 1) :=
  ⟨(C7_batch_boundary sampleSettings 0 [] [] [] ⟨7⟩ false false false 0
      (by decide)).1 (mkSampleTx [some sampleOutput, some sampleOutput]) (by decide),
   (C7_batch_boundary sampleSettings 0 [] [] [] ⟨7⟩ false false false 0
      (by decide)).2 (mkSampleTx [some sampleOutput, some sampleOutput,
        some sampleOutput]) (by decide)⟩

theorem recordUtxosVal_batchBins (common : List Bin) (c : List (Option UtxoHash))
    (h : common.find? (fun b => b.name == Field.recordUtxos) = none) :
    recordUtxosVal (batchBins common c) = c.countP (·.isSome) := by
  simp only [recordUtxosVal, getBin, batchBins_find?_recordUtxos _ _ h]
  simp

theorem recordUtxosVal_decoratePrimary (common : List Bin)
    (c : List (Option UtxoHash)) (restLen : Nat) (blockIDs blockHeights : List Nat)
    (subtreeIdxs : List Int) (utxosLen blockHeight : Nat) (now : Int) (ext : Bool)
    (inputsSer : List (List Nat)) (outputsSer : List (Option (List Nat)))
    (h : common.find? (fun b => b.name == Field.recordUtxos) = none) :
    recordUtxosVal (decoratePrimary (batchBins common c) restLen blockIDs
      blockHeights subtreeIdxs utxosLen blockHeight now ext inputsSer outputsSer) =
      c.countP (·.isSome) := by
  simp only [recordUtxosVal, getBin_decoratePrimary_recordUtxos]
  simp only [getBin, batchBins_find?_recordUtxos _ _ h]
  simp

theorem totalUtxosVal_decoratePrimary (b0 : List Bin) (restLen : Nat)
    (blockIDs blockHeights : List Nat) (subtreeIdxs : List Int)
    (utxosLen blockHeight : Nat) (now : Int) (ext : Bool)
    (inputsSer : List (List Nat)) (outputsSer : List (Option (List Nat)))
    (h : b0.find? (fun b => b.name == Field.totalUtxos) = none) :
    totalUtxosVal (decoratePrimary b0 restLen blockIDs blockHeights subtreeIdxs
      utxosLen blockHeight now ext inputsSer outputsSer) = utxosLen := by
  simp only [totalUtxosVal, getBin_decoratePrimary_totalUtxos _ _ _ _ _ _ _ _ _ _ _ h]
  simp

/-- **C2.** (counterexample) A padded partial transaction with outputs
`[nil, out]` is accepted by `Create` (no error, record stored), yet the
stored primary record has `totalUtxos = 2` — the total number of outputs —
while the number of spendable outputs is 1, and the sum of `recordUtxos`
over all records is 1 ≠ `totalUtxos`. -/
theorem C2_counterexample :
    (Create healthyEnv emptyStore sampleSettings
      (mkSamplePartialTx [none, some sampleOutput]) 0 {} 0).2 = none ∧
    ((Create healthyEnv emptyStore sampleSettings
      (mkSamplePartialTx [none, some sampleOutput]) 0 {} 0).1.kv.lookup
        (⟨9⟩, 0)).map totalUtxosVal = some 2 ∧
    ((Create healthyEnv emptyStore sampleSettings
      (mkSamplePartialTx [none, some sampleOutput]) 0 {} 0).1.kv.lookup
        (⟨9⟩, 0)).map recordUtxosVal = some 1 ∧
    (buildUtxos ⟨9⟩ false 0 0
      (mkSamplePartialTx [none, some sampleOutput]).outputs).countP (·.isSome) = 1 ∧
    (2 : Nat) ≠ 1 := by
  decide

/-- **C2.** (amended) For every transaction accepted by `Create`, the stored
`total_utxos` field equals the total number of outputs of the transaction
(spendable or not), and the sum of `record_utxos` over all shard records
equals the count of spendable outputs; the two agree exactly when every
output is spendable. -/
theorem C2_total_utxos_and_record_sum (st : Settings) (tx : Tx) (blockHeight : Nat)
    (blockIDs blockHeights : List Nat) (subtreeIdxs : List Int) (external : Bool)
    (txHash : TxHash) (isCoinbase conflicting locked : Bool) (now : Int)
    (_hb : 1 ≤ st.utxoBatchSize) (houts : tx.outputs ≠ []) :
    ∀ shards, GetBinsToStore st tx blockHeight blockIDs blockHeights subtreeIdxs
        external txHash isCoinbase conflicting locked now = .ok shards →
      totalUtxosVal (shards.headD []) = tx.outputs.length ∧
      (shards.map recordUtxosVal).sum =
        (buildUtxos txHash isCoinbase blockHeight 0 tx.outputs).countP (·.isSome) := by
  have hne : buildUtxos txHash isCoinbase blockHeight 0 tx.outputs ≠ [] := by
    intro hc
    have hlen := buildUtxos_length txHash isCoinbase blockHeight 0 tx.outputs
    rw [hc] at hlen
    exact houts (List.length_eq_zero.mp hlen.symm)
  obtain ⟨c0, cs, hchunk⟩ : ∃ c0 cs,
      chunkList st.utxoBatchSize
        (buildUtxos txHash isCoinbase blockHeight 0 tx.outputs) = c0 :: cs := by
    cases h : chunkList st.utxoBatchSize
        (buildUtxos txHash isCoinbase blockHeight 0 tx.outputs) with
    | nil => exact absurd h (chunkList_ne_nil _ _ hne)
    | cons c0 cs => exact ⟨c0, cs, rfl⟩
  have hres := GetBinsToStore_shape st tx blockHeight blockIDs blockHeights
    subtreeIdxs external txHash isCoinbase conflicting locked now houts c0 cs hchunk
  intro shards hsh
  obtain rfl : _ = shards := Except.ok.inj (hres.symm.trans hsh)
  have hcommonRec : (txCommonBins st tx blockHeight txHash isCoinbase conflicting
      locked).find? (fun b => b.name == Field.recordUtxos) = none := by
    simp only [txCommonBins]
    exact commonBinsFor_find?_recordUtxos _ _ _ _ _ _ _ _ _ _
  constructor
  · rw [List.headD_cons]
    rw [totalUtxosVal_decoratePrimary]
    · exact buildUtxos_length txHash isCoinbase blockHeight 0 tx.outputs
    · apply batchBins_find?_totalUtxos
      simp only [txCommonBins]
      exact commonBinsFor_find?_totalUtxos _ _ _ _ _ _ _ _ _ _
  · rw [List.map_cons,
      recordUtxosVal_decoratePrimary _ _ _ _ _ _ _ _ _ _ _ _ hcommonRec,
      List.map_map]
    have hmap : (cs.map (recordUtxosVal ∘ batchBins (txCommonBins st tx blockHeight
        txHash isCoinbase conflicting locked))) =
        cs.map (fun c => c.countP (·.isSome)) := by
      apply List.map_congr_left
      intro c _
      exact recordUtxosVal_batchBins _ c hcommonRec
    rw [hmap]
    have hsum := sum_countP_chunkList st.utxoBatchSize (fun o => o.isSome)
      (buildUtxos txHash isCoinbase blockHeight 0 tx.outputs)
    rw [hchunk, List.map_cons] at hsum
    exact hsum

/-- Witness for `C2_total_utxos_and_record_sum` at a 3-output transaction
split over two records with batch size 2: `totalUtxos = 3` and the
`recordUtxos` counters sum to 3. -/
theorem C2_total_utxos_witness :
    totalUtxosVal ((fun shards => shards.headD [])
      (match GetBinsToStore sampleSettings (mkSampleTx [some sampleOutput,
        some sampleOutput, some sampleOutput]) 0 [] [] [] false ⟨7⟩ false false
        false 0 with
      | .ok shards => shards
      | .error _ => [])) = 3 := by
  have h := C2_total_utxos_and_record_sum sampleSettings
    (mkSampleTx [some sampleOutput, some sampleOutput, some sampleOutput]) 0 [] []
    [] false ⟨7⟩ false false false 0 (by decide) (by decide)
  cases hr : GetBinsToStore sampleSettings (mkSampleTx [some sampleOutput,
      some sampleOutput, some sampleOutput]) 0 [] [] [] false ⟨7⟩ false false
      false 0 with
  | error e =>
    have hok : (GetBinsToStore sampleSettings (mkSampleTx [some sampleOutput,
        some sampleOutput, some sampleOutput]) 0 [] [] [] false ⟨7⟩ false false
        false 0).isOk = true := by decide
    rw [hr] at hok
    simp [Except.isOk, Except.toBool] at hok
  | ok shards =>
    have := (h shards hr).1
    simpa [hr] using this

theorem GetBinsToStore_empty_outputs (st : Settings) (tx : Tx) (blockHeight : Nat)
    (blockIDs blockHeights : List Nat) (subtreeIdxs : List Int) (external : Bool)
    (txHash : TxHash) (isCoinbase conflicting locked : Bool) (now : Int)
    (h : tx.outputs = []) :
    GetBinsToStore st tx blockHeight blockIDs blockHeights subtreeIdxs external
      txHash isCoinbase conflicting locked now = .error .processing := by
  rw [GetBinsToStore, if_pos h]

/-- **C3.** (counterexample) A zero-output transaction is rejected by
`Create` with a Processing error (the source wraps the
`NewProcessingError "tx has no outputs"` from `GetBinsToStore` in another
`NewProcessingError`), not the claimed InvalidArgument kind — the spec's
error taxonomy (§7) lists the two kinds as distinct. -/
theorem C3_counterexample :
    Create healthyEnv emptyStore sampleSettings (mkSampleTx []) 0 {} 0 =
      (emptyStore, some .processing) ∧
    TErr.processing ≠ TErr.invalidArgument := by
  decide

/-- **C3.** (amended) For every transaction with zero outputs, `Create`
fails with a Processing error and stores nothing: the store state is
returned unchanged. -/
theorem C3_zero_outputs_rejected (env : Env) (st : StoreState) (settings : Settings)
    (tx : Tx) (blockHeight : Nat) (opts : CreateOptions) (now : Int)
    (houts : tx.outputs = []) :
    Create env st settings tx blockHeight opts now = (st, some .processing) := by
  rw [Create, sendStoreBatchOne,
    GetBinsToStore_empty_outputs _ _ _ _ _ _ _ _ _ _ _ _ houts]

/-- Witness for `C3_zero_outputs_rejected` at a concrete empty transaction. -/
theorem C3_zero_outputs_rejected_witness :
    Create healthyEnv emptyStore sampleSettings (mkSampleTx []) 5 {} 0 =
      (emptyStore, some .processing) :=
  C3_zero_outputs_rejected healthyEnv emptyStore sampleSettings (mkSampleTx []) 5
    {} 0 (by decide)

theorem lookup_isSome_of_cons {α β : Type} [BEq α] (k : α) (p : α × β)
    (l : List (α × β)) (h : (l.lookup k).isSome) :
    ((p :: l).lookup k).isSome = true := by
  simp only [List.lookup]
  cases hk : k == p.1
  · simpa using h
  · rfl

theorem storeExternalLoop_healthy (env : Env) (henv : ∀ i, env.kvPutFails i = false)
    (txHash : TxHash) :
    ∀ (items : List (Nat × List Bin)) (st : StoreState),
      (storeExternalLoop env txHash st items).2.1 = none ∧
      (storeExternalLoop env txHash st items).2.2 = items.map (·.1) ∧
      (∀ p ∈ items,
        (((storeExternalLoop env txHash st items).1).kv.lookup (txHash, p.1)).isSome) ∧
      (∀ k : TxHash × Nat, (st.kv.lookup k).isSome →
        (((storeExternalLoop env txHash st items).1).kv.lookup k).isSome) := by
  intro items
  induction items with
  | nil => simp [storeExternalLoop]
  | cons p rest ih =>
    intro st
    obtain ⟨i, bins⟩ := p
    by_cases hk : ((st.kv.lookup (txHash, i)).isSome : Prop)
    · have hput : putRecordCreateOnly (env.kvPutFails i) st (txHash, i) bins =
          (st, .keyExists) := by
        rw [putRecordCreateOnly, henv i, if_neg (by simp), if_pos hk]
      simp only [storeExternalLoop, hput]
      obtain ⟨h1, h2, h3, h4⟩ := ih st
      refine ⟨h1, by simp [h2], ?_, h4⟩
      intro q hq
      rcases List.mem_cons.mp hq with hq | hq
      · subst hq
        exact h4 _ hk
      · exact h3 q hq
    · have hput : putRecordCreateOnly (env.kvPutFails i) st (txHash, i) bins =
          ({ st with kv := ((txHash, i), bins) :: st.kv }, .ok) := by
        rw [putRecordCreateOnly, henv i, if_neg (by simp), if_neg hk]
      simp only [storeExternalLoop, hput]
      obtain ⟨h1, h2, h3, h4⟩ :=
        ih { st with kv := ((txHash, i), bins) :: st.kv }
      refine ⟨h1, by simp [h2], ?_, ?_⟩
      · intro q hq
        rcases List.mem_cons.mp hq with hq | hq
        · subst hq
          apply h4
          simp [List.lookup]
        · exact h3 q hq
      · intro k hmem
        apply h4
        exact lookup_isSome_of_cons k _ _ hmem

/-- The contract of one external-protocol run over `binsToStore`: success is
signalled, the records are attempted in reverse index order (primary record
0 last), and afterwards every record index is present in the KV store. -/
def externalWriteOK (txHash : TxHash) (n : Nat)
    (r : StoreState × Option TErr × List Nat) : Prop :=
  r.2.1 = none ∧
  r.2.2 = (List.range n).reverse ∧
  r.2.2.getLast? = some 0 ∧
  ∀ i, i < n → ((r.1.kv.lookup (txHash, i)).isSome : Bool) = true

theorem storeExternalLoop_ok (env : Env) (henv2 : ∀ i, env.kvPutFails i = false)
    (txHash : TxHash) (binsToStore : List (List Bin)) (hn : binsToStore ≠ [])
    (st1 : StoreState) :
    externalWriteOK txHash binsToStore.length
      (storeExternalLoop env txHash st1 binsToStore.enum.reverse) := by
  obtain ⟨h1, h2, h3, _⟩ :=
    storeExternalLoop_healthy env henv2 txHash binsToStore.enum.reverse st1
  refine ⟨h1, ?_, ?_, ?_⟩
  · rw [h2, List.map_reverse, List.enum_map_fst]
  · rw [h2, List.map_reverse, List.enum_map_fst, List.getLast?_reverse]
    cases hb : binsToStore with
    | nil => exact absurd hb hn
    | cons b bs => simp [List.range_succ_eq_map]
  · intro i hi
    have hmem : (i, binsToStore.get ⟨i, hi⟩) ∈ binsToStore.enum.reverse := by
      rw [List.mem_reverse, List.mem_enum_iff_getElem?]
      simp [List.getElem?_eq_getElem hi]
    exact h3 _ hmem

/-- **C6.** For every multi-record transaction, the external write protocol
(both `StoreTransactionExternally` and `StorePartialTransactionExternally`)
attempts the records in reverse index order so the primary record (index 0)
is written last; a `KeyExists` result is skipped and treated as success, so
a run from any starting state — in particular a retry after an interrupted
attempt with any subset of records already present — signals success and
leaves every record index present. -/
theorem C6_reverse_order_recovery (env : Env) (st : StoreState) (txHash : TxHash)
    (tx : Tx) (blockHeight : Nat) (isCoinbase : Bool)
    (binsToStore : List (List Bin)) (henv1 : env.blobSetFails = false)
    (henv2 : ∀ i, env.kvPutFails i = false) (hn : binsToStore ≠ []) :
    externalWriteOK txHash binsToStore.length
      (StoreTransactionExternally env st txHash tx binsToStore) ∧
    externalWriteOK txHash binsToStore.length
      (StorePartialTransactionExternally env st txHash tx blockHeight isCoinbase
        binsToStore) := by
  constructor
  · rw [StoreTransactionExternally, henv1]
    by_cases hp : (st.blobs.lookup (txHash, FileType.tx)).isSome = true
    · simp only [blobSet, Bool.false_eq_true, if_false, hp, if_true]
      exact storeExternalLoop_ok env henv2 txHash binsToStore hn st
    · simp only [blobSet, Bool.false_eq_true, if_false, hp]
      exact storeExternalLoop_ok env henv2 txHash binsToStore hn _
  · rw [StorePartialTransactionExternally, henv1]
    by_cases hp : (st.blobs.lookup (txHash, FileType.outputs)).isSome = true
    · simp only [blobSet, Bool.false_eq_true, if_false, hp, if_true]
      exact storeExternalLoop_ok env henv2 txHash binsToStore hn st
    · simp only [blobSet, Bool.false_eq_true, if_false, hp]
      exact storeExternalLoop_ok env henv2 txHash binsToStore hn _

/-- Witness for `C6_reverse_order_recovery`: a two-record write on a state
that already holds the extension record (index 1, an interrupted previous
attempt) succeeds, attempts `[1, 0]` with the primary last, and leaves both
records present. -/
theorem C6_reverse_order_recovery_witness :
    externalWriteOK ⟨7⟩ 2 (StoreTransactionExternally healthyEnv
      ⟨[], [((⟨7⟩, 1), [])]⟩ ⟨7⟩ (mkSampleTx [some sampleOutput]) [[], []]) ∧
    externalWriteOK ⟨7⟩ 2 (StorePartialTransactionExternally healthyEnv
      ⟨[], [((⟨7⟩, 1), [])]⟩ ⟨7⟩ (mkSampleTx [some sampleOutput]) 0 false
      [[], []]) :=
  C6_reverse_order_recovery healthyEnv ⟨[], [((⟨7⟩, 1), [])]⟩ ⟨7⟩
    (mkSampleTx [some sampleOutput]) 0 false [[], []] rfl (fun _ => rfl)
    (by decide)

/-- A three-output transaction: with batch size 2 it needs two records and
takes the external multi-record path. -/
def multiShardTx : Tx :=
  mkSampleTx [some sampleOutput, some sampleOutput, some sampleOutput]

/-- **C4.** A multi-record transaction (3 outputs, batch size 2) is created
successfully; a second identical `Create` leaves the stored state unchanged
but returns success (`nil` on the done channel) — every record write reports
`KeyExists` and is skipped, the blob write reports `AlreadyExists` and is
treated as success, and nothing ever produces the `TxExists` error the claim
(and the repository's own test, src/unnamed/part_004 Scenario C) requires. -/
theorem C4_second_create_multirecord_returns_success :
    (Create healthyEnv emptyStore sampleSettings multiShardTx 0 {} 0).2 = none ∧
    (Create healthyEnv (Create healthyEnv emptyStore sampleSettings multiShardTx
      0 {} 0).1 sampleSettings multiShardTx 0 {} 0).1 =
      (Create healthyEnv emptyStore sampleSettings multiShardTx 0 {} 0).1 ∧
    (Create healthyEnv (Create healthyEnv emptyStore sampleSettings multiShardTx
      0 {} 0).1 sampleSettings multiShardTx 0 {} 0).2 = none ∧
    (none : Option TErr) ≠ some .txExists := by
  decide

/-- **C5.** Blob-store behaviour during `Create` of a multi-record
transaction: (i) with the blob already present, the `AlreadyExists` result
is treated as success and the create completes; (ii) an injected blob I/O
failure aborts the create with the state unchanged, but the surfaced error
is the TxExists kind (`errors.NewTxExistsError("error writing transaction to
external store …")`), not the Storage kind the claim (and spec §4.B)
require. -/
theorem C5_blob_failure_misclassified :
    (Create healthyEnv ⟨[((⟨7⟩, FileType.tx), .txBytes [1, 2, 3])], []⟩
      sampleSettings multiShardTx 0 {} 0).2 = none ∧
    (Create ⟨true, fun _ => false, false, false⟩ emptyStore sampleSettings
      multiShardTx 0 {} 0).2 = some .txExists ∧
    (Create ⟨true, fun _ => false, false, false⟩ emptyStore sampleSettings
      multiShardTx 0 {} 0).1 = emptyStore ∧
    TErr.txExists ≠ TErr.storage := by
  decide

end Teranode
